import Mathlib

/-!
Shallow embedding of the `confluence_mcp` Markdown ↔ Confluence Storage
Format converters (`src/confluence_mcp/converters/`), together with theorems
settling the specification claims about them.

Conventions:
* Python strings are `String` / `List Char` (Python string indices are
  Unicode code points, as are Lean `Char`s).
* Byte strings are `List Nat` (each entry < 256).
* The external collaborators (the generic Markdown→HTML transform, the
  HTML tree library used by `_html_to_storage` and
  `_process_confluence_macros`, the `html2text` HTML→Markdown transform,
  the `mmdc` render subprocess and the Confluence upload client) are
  modelled as explicit environment parameters, as the specification
  itself treats them ("pure, versioned black boxes", §6).
* The regular-expression based extraction routines are translated into
  explicit scanners that implement the exact semantics (greedy/lazy
  quantifier backtracking, leftmost non-overlapping `finditer`/`sub`)
  of the concrete patterns appearing in the source.
-/

namespace ConfluenceMCP

/-- ASCII whitespace, the character class of Python's `\s` / `str.strip`
restricted to ASCII (the converters only ever produce ASCII whitespace). -/
def pyWS (c : Char) : Bool :=
  c == ' ' || c == '\t' || c == '\n' || c == '\r' || c == '\x0b' || c == '\x0c'

/-- Python `str.rstrip()` on the character list. -/
def rstripL (l : List Char) : List Char :=
  (l.reverse.dropWhile pyWS).reverse

/-- Python `str.lstrip()` on the character list. -/
def lstripL (l : List Char) : List Char :=
  l.dropWhile pyWS

/-- Python `str.strip()` on the character list. -/
def stripL (l : List Char) : List Char :=
  lstripL (rstripL l)

/-- Python `str.strip()`. -/
def stripS (s : String) : String :=
  (stripL s.toList).asString

/-- Substring test (Python `pat in s`). -/
def containsSub : List Char → List Char → Bool
  | [], pat => pat.isEmpty
  | c :: t, pat => pat.isPrefixOf (c :: t) || containsSub t pat

/-- String-level substring test. -/
def containsS (s pat : String) : Bool :=
  containsSub s.toList pat.toList

/-- Index of the first occurrence of `pat` (Python `s.find(pat)`). -/
def findSubIdx (pat : List Char) : List Char → Option Nat
  | [] => if pat.isEmpty then some 0 else none
  | c :: t =>
    if pat.isPrefixOf (c :: t) then some 0
    else (findSubIdx pat t).map (· + 1)

/-- Python `str.replace(pat, rep)`: leftmost, non-overlapping, replaces every
occurrence, scanning resumes after each replacement.  The fuel argument only
forces termination (each step consumes at least one character, so
`length + 1` always suffices); all call sites in the converters pass a
non-empty `pat`; for `pat = []` this returns the input. -/
def replaceAllF (pat rep : List Char) : Nat → List Char → List Char
  | 0, s => s
  | _ + 1, [] => []
  | fuel + 1, c :: t =>
    if pat ≠ [] ∧ pat.isPrefixOf (c :: t) then
      rep ++ replaceAllF pat rep fuel (t.drop (pat.length - 1))
    else
      c :: replaceAllF pat rep fuel t

/-- Python `str.replace(pat, rep)` on character lists. -/
def replaceAllL (pat rep s : List Char) : List Char :=
  replaceAllF pat rep (s.length + 1) s

/-- Python `s.replace(pat, rep)` on `String`. -/
def replaceAllS (s pat rep : String) : String :=
  (replaceAllL pat.toList rep.toList s.toList).asString

/-- Python `str.split(sep)` (for a non-empty separator), fuelled like
`replaceAllF`. -/
def splitSubF (pat : List Char) : Nat → List Char → List (List Char)
  | 0, s => [s]
  | _ + 1, [] => [[]]
  | fuel + 1, c :: t =>
    if pat ≠ [] ∧ pat.isPrefixOf (c :: t) then
      [] :: splitSubF pat fuel (t.drop (pat.length - 1))
    else
      match splitSubF pat fuel t with
      | [] => [[c]]
      | h :: r => (c :: h) :: r

/-- Python `str.split(sep)`. -/
def splitSubL (pat s : List Char) : List (List Char) :=
  splitSubF pat (s.length + 1) s

/-- Python `str.split('\n')`. -/
def splitNlL : List Char → List (List Char)
  | [] => [[]]
  | c :: t =>
    if c = '\n' then [] :: splitNlL t
    else
      match splitNlL t with
      | [] => [[c]]
      | h :: r => (c :: h) :: r

/-- Python `'\n'.join(lines)`. -/
def joinNlL (ls : List (List Char)) : List Char :=
  List.intercalate ['\n'] ls

/-- Largest index of `l` holding a newline, if any. -/
def lastNlIdx (l : List Char) : Option Nat :=
  (((List.range l.length).filter (fun k => l.getD k ' ' = '\n')).reverse).head?

/-! ### Byte-level encodings

`encode_mermaid` (mermaid_to_image.py) calls `zlib.compress(data, level=9)`;
`_create_mermaid_code_block` (markdown_to_storage.py) calls
`zlib.compressobj(level=9, wbits=-15)`, i.e. a raw DEFLATE stream.  zlib's
wire format (RFC 1950) is: the two header bytes `0x78 0xDA` (CMF/FLG at
compression level 9), the raw DEFLATE stream, and the 4-byte big-endian
Adler-32 checksum of the input.  `deflRaw` below models the raw DEFLATE
stream as a single final fixed-Huffman block of literals, which is what
zlib emits for the short, repetition-free diagram sources used in the
theorems; the claims settled through it depend only on the presence or
absence of the zlib header/trailer framing, which holds for every input. -/

/-- Adler-32 checksum (RFC 1950), big-endian 4-byte encoding. -/
def adler32 (bs : List Nat) : List Nat :=
  let st := bs.foldl
    (fun (p : Nat × Nat) b =>
      let a := (p.1 + b) % 65521
      (a, (p.2 + a) % 65521))
    (1, 0)
  [st.2 / 256, st.2 % 256, st.1 / 256, st.1 % 256]

/-- The `len` bits of `v`, most significant first (Huffman codes are written
MSB-first in a DEFLATE stream). -/
def bitsMSB (v len : Nat) : List Bool :=
  (List.range len).map (fun i => v / 2 ^ (len - 1 - i) % 2 = 1)

/-- Fixed-Huffman code for a literal byte (RFC 1951 §3.2.6). -/
def litBits (b : Nat) : List Bool :=
  if b < 144 then bitsMSB (48 + b) 8
  else bitsMSB (400 + (b - 144)) 9

/-- Pack a bit stream into bytes, least-significant bit first, zero-padding
the final byte (RFC 1951 §3.1.1). -/
def packBitsF : Nat → List Bool → List Nat
  | 0, _ => []
  | _ + 1, [] => []
  | fuel + 1, bits =>
    ((bits.take 8).foldr (fun b acc => 2 * acc + (if b then 1 else 0)) 0)
      :: packBitsF fuel (bits.drop 8)

/-- Pack a bit stream into bytes (see `packBitsF`; the fuel only forces
termination). -/
def packBitsLSB (bits : List Bool) : List Nat :=
  packBitsF (bits.length + 1) bits

/-- Raw DEFLATE stream (`wbits = -15`): a single final block (`BFINAL=1`,
`BTYPE=01` fixed Huffman) of literal codes followed by the end-of-block
code (7 zero bits). -/
def deflRaw (bs : List Nat) : List Nat :=
  packBitsLSB ([true, true, false] ++ (bs.map litBits).flatten ++ List.replicate 7 false)

/-- `zlib.compress(data, level=9)`: zlib header `0x78 0xDA`, the raw DEFLATE
stream, and the Adler-32 trailer (RFC 1950). -/
def zlibCompressBytes (bs : List Nat) : List Nat :=
  0x78 :: 0xDA :: (deflRaw bs ++ adler32 bs)

/-- UTF-8 encoding of one code point. -/
def utf8Char (c : Char) : List Nat :=
  let n := c.toNat
  if n < 0x80 then [n]
  else if n < 0x800 then [0xC0 + n / 64, 0x80 + n % 64]
  else if n < 0x10000 then
    [0xE0 + n / 4096, 0x80 + n / 64 % 64, 0x80 + n % 64]
  else
    [0xF0 + n / 0x40000, 0x80 + n / 4096 % 64, 0x80 + n / 64 % 64, 0x80 + n % 64]

/-- Python `s.encode('utf-8')`. -/
def utf8Bytes (s : String) : List Nat :=
  (s.toList.map utf8Char).flatten

/-- The URL-safe base64 alphabet of Python's `base64.urlsafe_b64encode`. -/
def b64Alphabet : List Char :=
  "ABCDEFGHIJKLMNOPQRSTUVWXYZabcdefghijklmnopqrstuvwxyz0123456789-_".toList

/-- Character for one 6-bit group. -/
def b64Char (n : Nat) : Char :=
  b64Alphabet.getD n 'A'

/-- URL-safe base64 with `=` padding (Python `base64.urlsafe_b64encode`). -/
def b64urlL : List Nat → List Char
  | [] => []
  | [b1] => [b64Char (b1 / 4), b64Char (b1 % 4 * 16), '=', '=']
  | [b1, b2] => [b64Char (b1 / 4), b64Char (b1 % 4 * 16 + b2 / 16), b64Char (b2 % 16 * 4), '=']
  | b1 :: b2 :: b3 :: rest =>
    b64Char (b1 / 4) :: b64Char (b1 % 4 * 16 + b2 / 16)
      :: b64Char (b2 % 16 * 4 + b3 / 64) :: b64Char (b3 % 64) :: b64urlL rest

/-- `base64.urlsafe_b64encode(bs).decode('utf-8')`. -/
def b64url (bs : List Nat) : String :=
  (b64urlL bs).asString

end ConfluenceMCP

namespace ConfluenceMCP

/-! ### Mermaid fence extraction

`MD_MERMAID_PATTERN = re.compile(r'```mermaid\s*\n(.*?)\n```', re.DOTALL)`
(mermaid_handler.py, mermaid_local_renderer.py, mermaid_to_image.py).
A match consumes the literal ```` ```mermaid ````, then `\s*\n`: the greedy
`\s*` backtracks until the next character is a newline, so it consumes the
maximal whitespace run up to (and the `\n` then consumes) one of its
newlines, tried from the last newline of the run leftwards; the lazy
`(.*?)\n``` ` then matches up to the first following occurrence of
`"\n```"`. -/

/-- The regex match starting exactly at the head of `s`, if any:
`(total length, raw group(1))`. -/
def fenceHere (s : List Char) : Option (Nat × List Char) :=
  let lit := "```mermaid".toList
  if lit.isPrefixOf s then
    let u := s.drop lit.length
    let w := u.takeWhile pyWS
    let ks := (((List.range w.length).filter (fun k => w.getD k ' ' = '\n')).reverse)
    ks.findSome? (fun k =>
      let body := u.drop (k + 1)
      match findSubIdx "\n```".toList body with
      | some j => some (lit.length + k + 1 + j + 4, body.take j)
      | none => none)
  else none

/-- `finditer` for the fence pattern, with absolute spans:
entries are `(start, stop, match_text, raw_group)`. -/
def fenceScanAux : Nat → List Char → Nat → List (Nat × Nat × List Char × List Char)
  | 0, _, _ => []
  | fuel + 1, s, pos =>
    match s with
    | [] => []
    | _ :: t =>
      match fenceHere s with
      | some (len, g) =>
        (pos, pos + len, s.take len, g) :: fenceScanAux fuel (s.drop len) (pos + len)
      | none => fenceScanAux fuel t (pos + 1)

/-- All fence matches of `MD_MERMAID_PATTERN.finditer`, with spans. -/
def mdMermaidMatches (s : String) : List (Nat × Nat × String × String) :=
  (fenceScanAux (s.toList.length + 1) s.toList 0).map
    (fun e => (e.1, e.2.1, e.2.2.1.asString, e.2.2.2.asString))

/-- `MermaidHandler.extract_mermaid_blocks`: list of
`(original block, stripped code)`. -/
def extract_mermaid_blocks (s : String) : List (String × String) :=
  (mdMermaidMatches s).map (fun e => (e.2.2.1, stripS e.2.2.2))

/-! ### Confluence mermaid macro extraction

`CONFLUENCE_MERMAID_PATTERN` (mermaid_handler.py lines 20-25):
`<ac:structured-macro\s+ac:name="mermaid"[^>]*>` then lazily
`<ac:plain-text-body><![CDATA[(.*?)]]></ac:plain-text-body>` and lazily
`</ac:structured-macro>`, all with DOTALL.  The lazy quantifiers resolve to
the *first* following occurrence of each literal; when a later literal is
absent the whole attempt fails (searching from any later occurrence scans a
sub-region, so no backtracking can recover). -/

/-- The macro-pattern match starting at the head of `s`, if any:
`(total length, raw group(1))`. -/
def cmHere (s : List Char) : Option (Nat × List Char) :=
  let lit1 := "<ac:structured-macro".toList
  let lit2 := "ac:name=\"mermaid\"".toList
  let lit3 := "<ac:plain-text-body><![CDATA[".toList
  let lit4 := "]]></ac:plain-text-body>".toList
  let lit5 := "</ac:structured-macro>".toList
  if lit1.isPrefixOf s then
    let u := s.drop lit1.length
    let w := (u.takeWhile pyWS).length
    if w = 0 then none
    else
      let v := u.drop w
      if lit2.isPrefixOf v then
        let x := v.drop lit2.length
        match x.findIdx? (· = '>') with
        | none => none
        | some g =>
          let y := x.drop (g + 1)
          match findSubIdx lit3 y with
          | none => none
          | some j1 =>
            let z := y.drop (j1 + lit3.length)
            match findSubIdx lit4 z with
            | none => none
            | some j2 =>
              let z2 := z.drop (j2 + lit4.length)
              match findSubIdx lit5 z2 with
              | none => none
              | some j3 =>
                some (lit1.length + w + lit2.length + g + 1 + j1 + lit3.length
                        + j2 + lit4.length + j3 + lit5.length, z.take j2)
      else none
  else none

/-- Generic leftmost non-overlapping scanner for a head matcher. -/
def scanAux (here : List Char → Option (Nat × List Char)) :
    Nat → List Char → List (List Char × List Char)
  | 0, _ => []
  | fuel + 1, s =>
    match s with
    | [] => []
    | _ :: t =>
      match here s with
      | some (len, g) => (s.take len, g) :: scanAux here fuel (s.drop len)
      | none => scanAux here fuel t

/-- `MermaidHandler.extract_confluence_mermaid`: list of
`(original macro, stripped code)`. -/
def extract_confluence_mermaid (s : String) : List (String × String) :=
  (scanAux cmHere (s.toList.length + 1) s.toList).map
    (fun e => (e.1.asString, stripS e.2.asString))

/-! ### draw.io markers

`DrawioHandler.MD_DRAWIO_PATTERN =
 re.compile(r'> ?📊 ?\*\*Draw\.io (?:图表|Diagram)\*\*[：:]\s*(.+?)$', re.MULTILINE)`
(drawio_handler.py lines 38-41; the pattern has no `^` anchor, so a match may
start anywhere).  After the colon, the greedy `\s*` backtracks until a
non-newline character is available for `(.+?)`, which then extends lazily to
the next `$` (end of line or of input). -/

/-- Consume an optional single space (`' ?'`). -/
def optSpace (s : List Char) : Nat :=
  match s with
  | ' ' :: _ => 1
  | _ => 0

/-- The drawio-marker match starting at the head of `s`, if any:
`(total length up to the line end, raw group(1))`. -/
def drawioHere (s : List Char) : Option (Nat × List Char) :=
  match s with
  | '>' :: r0 =>
    let a := optSpace r0
    let r1 := r0.drop a
    match r1 with
    | '📊' :: r2 =>
      let b := optSpace r2
      let r3 := r2.drop b
      let lit := "**Draw.io ".toList
      if lit.isPrefixOf r3 then
        let r4 := r3.drop lit.length
        let alt :=
          if "图表".toList.isPrefixOf r4 then some 2
          else if "Diagram".toList.isPrefixOf r4 then some 7
          else none
        match alt with
        | none => none
        | some altLen =>
          let r5 := r4.drop altLen
          if "**".toList.isPrefixOf r5 then
            let r6 := r5.drop 2
            match r6 with
            | d :: r7 =>
              if d = '：' ∨ d = ':' then
                let consumed := 1 + a + 1 + b + lit.length + altLen + 2 + 1
                let w := r7.takeWhile pyWS
                if w.length < r7.length then
                  -- a non-whitespace (hence non-newline) char follows the run
                  let grp := (r7.drop w.length).takeWhile (· ≠ '\n')
                  some (consumed + w.length + grp.length, grp)
                else
                  -- input ends in the whitespace run: backtrack `\s*` to the
                  -- last non-newline whitespace character, if any
                  match (((List.range w.length).filter
                      (fun k => ¬ w.getD k ' ' = '\n')).reverse).head? with
                  | some k =>
                    let grp := (r7.drop k).takeWhile (· ≠ '\n')
                    some (consumed + k + grp.length, grp)
                  | none => none
              else none
            | [] => none
          else none
      else none
    | _ => none
  | _ => none

/-- The link-line pattern appended in `extract_markdown_drawio`
(`r'\n> ?\[draw\.io[^\]]*\]\([^\)]+\)'`): length consumed at the head of `s`. -/
def drawioLinkHere (s : List Char) : Option Nat :=
  match s with
  | '\n' :: '>' :: r0 =>
    let a := optSpace r0
    let r1 := r0.drop a
    let lit := "[draw.io".toList
    if lit.isPrefixOf r1 then
      let r2 := r1.drop lit.length
      let c1 := r2.takeWhile (· ≠ ']')
      match r2.drop c1.length with
      | ']' :: '(' :: r3 =>
        let c2 := r3.takeWhile (· ≠ ')')
        if c2.isEmpty then none
        else
          match r3.drop c2.length with
          | ')' :: _ => some (2 + a + lit.length + c1.length + 2 + c2.length + 1)
          | _ => none
      | _ => none
    else none
  | _ => none

/-- First position (if any) where `full` occurs immediately followed by the
link-line pattern; returns the extended match text
(`link_line_pattern.search(markdown_content)`). -/
def drawioExtend (full : List Char) : Nat → List Char → Option (List Char)
  | 0, _ => none
  | fuel + 1, s =>
    match s with
    | [] => none
    | _ :: t =>
      if full.isPrefixOf s then
        match drawioLinkHere (s.drop full.length) with
        | some n => some (s.take (full.length + n))
        | none => drawioExtend full fuel t
      else drawioExtend full fuel t

/-- `DrawioHandler.extract_markdown_drawio`: list of
`(original marker text, diagram name)`; each match is extended by the
editor-link line when `link_line_pattern.search` finds one anywhere. -/
def extract_markdown_drawio (s : String) : List (String × String) :=
  (scanAux drawioHere (s.toList.length + 1) s.toList).map
    (fun e =>
      let full :=
        match drawioExtend e.1 (s.toList.length + 1) s.toList with
        | some ext => ext
        | none => e.1
      (full.asString, stripS e.2.asString))

/-- `DrawioHandler.markdown_to_drawio_macro` (renamed: builds the Confluence
drawio macro text for a diagram name). -/
def markdown_to_drawio_tag (diagram_name : String) : String :=
  "<ac:structured-macro ac:name=\"drawio\" ac:schema-version=\"1\">"
    ++ "<ac:parameter ac:name=\"diagramName\">" ++ diagram_name ++ "</ac:parameter>"
    ++ "<ac:parameter ac:name=\"attachment\">" ++ diagram_name ++ "</ac:parameter>"
    ++ "</ac:structured-macro>"

end ConfluenceMCP

namespace ConfluenceMCP

/-! ### Metadata removal

`MarkdownToStorageConverter._remove_metadata` (markdown_to_storage.py
lines 209-220) applies
`re.compile(r'^---\s*\n.*?\n---\s*\n', re.DOTALL | re.MULTILINE).sub('', s)`.
With MULTILINE the anchor `^` matches at the start of *every* line and
`sub` removes *every* non-overlapping match, not only a header at the top
of the document.  Each `\s*\n` consumes its whitespace run up to and
including the last newline the following atom allows, tried right-to-left;
the lazy `.*?` stops at the first `\n---` whose following `\s*\n` succeeds. -/

/-- Search for the closing `\n---\s*\n` of the metadata pattern inside
`body`, trying occurrences of `"\n---"` left to right; returns the number of
characters of `body` consumed through the final newline. -/
def metaClose : Nat → List Char → Option Nat
  | 0, _ => none
  | fuel + 1, body =>
    match findSubIdx "\n---".toList body with
    | none => none
    | some j =>
      let after := body.drop (j + 4)
      let w2 := after.takeWhile pyWS
      match lastNlIdx w2 with
      | some k2 => some (j + 4 + k2 + 1)
      | none =>
        match metaClose fuel (body.drop (j + 1)) with
        | some m => some (j + 1 + m)
        | none => none

/-- A metadata-pattern match starting at the head of `s` (which the caller
guarantees to be a line start): its total length. -/
def metaHere (s : List Char) : Option Nat :=
  if "---".toList.isPrefixOf s then
    let u := s.drop 3
    let w := u.takeWhile pyWS
    let ks := (((List.range w.length).filter (fun k => w.getD k ' ' = '\n')).reverse)
    ks.findSome? (fun k =>
      match metaClose (u.length + 1) (u.drop (k + 1)) with
      | some m => some (3 + k + 1 + m)
      | none => none)
  else none

/-- The global `sub('', ...)` pass: delete every match, tracking whether the
current position is a line start (where MULTILINE `^` can match). -/
def removeMetaAux : Nat → List Char → Bool → List Char
  | 0, s, _ => s
  | fuel + 1, s, atStart =>
    match s with
    | [] => []
    | c :: t =>
      if atStart then
        match metaHere s with
        | some len => removeMetaAux fuel (s.drop len) true
        | none => c :: removeMetaAux fuel t (c = '\n')
      else c :: removeMetaAux fuel t (c = '\n')

/-- `MarkdownToStorageConverter._remove_metadata`. -/
def remove_metadata (s : String) : String :=
  (removeMetaAux (s.toList.length + 1) s.toList true).asString

end ConfluenceMCP

namespace ConfluenceMCP

/-! ### Reverse-converter cosmetic post-processing

`StorageToMarkdownConverter._post_process` (storage_to_markdown.py lines
160-220): eight steps in a fixed order. -/

/-- Step 1 head matcher: `\*\*([^*]+)\*\* ([：:：])` at the head of `s`;
returns `(consumed length, replacement text)` (`r'**\1**\2'`). -/
def boldColonHere (s : List Char) : Option (Nat × List Char) :=
  match s with
  | '*' :: '*' :: r =>
    let g := r.takeWhile (· ≠ '*')
    if g.isEmpty then none
    else
      match r.drop g.length with
      | '*' :: '*' :: ' ' :: d :: _ =>
        if d = ':' ∨ d = '：' then
          some (2 + g.length + 3 + 1, ('*' :: '*' :: g) ++ ('*' :: '*' :: [d]))
        else none
      | _ => none
  | _ => none

/-- Step 1: `re.sub(r'\*\*([^*]+)\*\* ([：:：])', r'**\1**\2', s)`. -/
def fixBoldColon : Nat → List Char → List Char
  | 0, s => s
  | fuel + 1, s =>
    match s with
    | [] => []
    | c :: t =>
      match boldColonHere s with
      | some (len, out) => out ++ fixBoldColon fuel (s.drop len)
      | none => c :: fixBoldColon fuel t

/-- Step 2, per line: `re.sub(r'^(#{1,6}) (\d+)\\\.', r'\1 \2.', s, flags=MULTILINE)`
(the `^`-anchored pattern can only fire at a line start; `\d` is modelled as
an ASCII digit, the only digits these converters produce). -/
def fixHeadingLine (l : List Char) : List Char :=
  let hs := l.takeWhile (· = '#')
  if 1 ≤ hs.length ∧ hs.length ≤ 6 then
    match l.drop hs.length with
    | ' ' :: r =>
      let ds := r.takeWhile Char.isDigit
      if ds.isEmpty then l
      else
        match r.drop ds.length with
        | '\\' :: '.' :: rest => hs ++ (' ' :: ds) ++ ('.' :: rest)
        | _ => l
    | _ => l
  else l

/-- Step 3, per line: split lines containing `\-` into one list item per
piece (skipping fenced-code lines), exactly as the Python loop does. -/
def step3Line (l : List Char) : List (List Char) :=
  if containsSub l ['\\', '-'] then
    if ¬ (['`', '`', '`'].isPrefixOf (stripL l)) then
      match splitSubL ['\\', '-'] l with
      | p0 :: p1 :: rest =>
        rstripL p0 ::
          ((p1 :: rest).filterMap (fun p =>
            if (stripL p).isEmpty then none else some ('-' :: ' ' :: stripL p)))
      | _ => [l]
    else [l]
  else [l]

/-- Step 4, per line: `re.sub(r'^\* \* \*$', '---', s, flags=MULTILINE)`. -/
def fixRuleLine (l : List Char) : List Char :=
  if l = "* * *".toList then "---".toList else l

/-- Step 6: `re.sub(r'\n{3,}', '\n\n', s)` — collapse every maximal run of
three or more newlines to two. -/
def collapseNl : Nat → List Char → List Char
  | 0, s => s
  | fuel + 1, s =>
    match s with
    | [] => []
    | c :: t =>
      if c = '\n' then
        let run := 1 + (t.takeWhile (· = '\n')).length
        if 3 ≤ run then '\n' :: '\n' :: collapseNl fuel (t.drop (run - 1))
        else c :: collapseNl fuel t
      else c :: collapseNl fuel t

/-- Step 7: strip trailing whitespace from every line. -/
def rstripLines (l : List Char) : List Char :=
  joinNlL ((splitNlL l).map rstripL)

/-- Step 8: `s.strip() + '\n'`. -/
def finalNl (l : List Char) : List Char :=
  stripL l ++ ['\n']

/-- `StorageToMarkdownConverter._post_process`. -/
def post_process (s : String) : String :=
  let s1 := fixBoldColon (s.toList.length + 1) s.toList
  let s2 := joinNlL ((splitNlL s1).map fixHeadingLine)
  let s3 := joinNlL (((splitNlL s2).map step3Line).flatten)
  let s4 := joinNlL ((splitNlL s3).map fixRuleLine)
  let s5 := replaceAllL "```\n\n\n".toList "```\n\n".toList s4
  let s6 := collapseNl (s5.length + 1) s5
  let s7 := rstripLines s6
  (finalNl s7).asString

end ConfluenceMCP

namespace ConfluenceMCP

/-! ### Macro builders and URLs -/

/-- The Mermaid Live Editor deep link built in
`MarkdownToStorageConverter._create_mermaid_code_block` (lines 180-184):
raw-deflate (`compressobj(level=9, wbits=-15)`) the UTF-8 code bytes,
URL-safe base64, fixed prefix. -/
def mermaid_live_url (code : String) : String :=
  "https://mermaid.live/edit#pako:" ++ b64url (deflRaw (utf8Bytes code))

/-- `MarkdownToStorageConverter._create_mermaid_code_block`: the collapsible
expand container holding a mermaid-tagged code macro plus the deep link. -/
def create_mermaid_code_block (code : String) : String :=
  "<ac:structured-macro ac:name=\"expand\">"
    ++ "<ac:parameter ac:name=\"title\">📝 点击展开查看 Mermaid 代码</ac:parameter>"
    ++ "<ac:rich-text-body>"
    ++ "<ac:structured-macro ac:name=\"code\">"
    ++ "<ac:parameter ac:name=\"language\">mermaid</ac:parameter>"
    ++ "<ac:parameter ac:name=\"title\">Mermaid 源代码</ac:parameter>"
    ++ "<ac:plain-text-body><![CDATA["
    ++ code
    ++ "]]></ac:plain-text-body>"
    ++ "</ac:structured-macro>"
    ++ "</ac:rich-text-body>"
    ++ "</ac:structured-macro>"
    ++ "<p style=\"margin-top: 15px;\">"
    ++ "<a href=\"" ++ mermaid_live_url code ++ "\" target=\"_blank\" "
    ++ "style=\"display: inline-block; padding: 10px 20px; background-color: #0052CC; "
    ++ "color: white; text-decoration: none; border-radius: 3px; font-weight: bold;\">"
    ++ "🎨 在 Mermaid Live Editor 中查看和编辑"
    ++ "</a>"
    ++ "</p>"

/-- The native-macro representation built inline in
`MarkdownToStorageConverter.convert` (lines 119-125): note the macro name
`mermaid-macro`. -/
def mermaid_macro_tag (code : String) : String :=
  "<ac:structured-macro ac:name=\"mermaid-macro\" ac:schema-version=\"1\">"
    ++ "<ac:plain-text-body><![CDATA["
    ++ code
    ++ "]]></ac:plain-text-body>"
    ++ "</ac:structured-macro>"

/-- The attachment image reference built in `convert` (lines 82-86). -/
def image_tag (filename : String) : String :=
  "<ac:image ac:align=\"center\" ac:layout=\"center\">"
    ++ "<ri:attachment ri:filename=\"" ++ filename ++ "\" />"
    ++ "</ac:image>"

/-- `MermaidToImageConverter.encode_mermaid` (mermaid_to_image.py lines
19-35): `zlib.compress(code.encode('utf-8'), level=9)` — the zlib-framed
stream, *not* the raw deflate stream — then URL-safe base64. -/
def encode_mermaid (mermaid_code : String) : String :=
  "https://mermaid.ink/img/" ++ b64url (zlibCompressBytes (utf8Bytes mermaid_code)) ++ "?type=png"

/-! ### The forward converter `MarkdownToStorageConverter.convert`

External collaborators are environment parameters:
* `md2html` — the generic `markdown` library transform (`self.md.convert`),
  a black box per spec §6;
* `treePost` — `_html_to_storage` (lines 222-245), repo code whose work is
  tree surgery through the external BeautifulSoup parse/serialize cycle and
  is therefore modelled as a transform parameter;
* `mmdcAvailable` — `MermaidLocalRenderer.check_mmdc_available()`;
* `renderOk i` — whether `render_to_file` succeeded *and* the output file
  exists for the `i`-th diagram block (0-based);
* `fileSize i` — `image_path.stat().st_size` for that block;
* `upload path filename` — `confluence_client.upload_attachment`, `none`
  modelling a raised exception, `some a` the returned attachment object;
* `tempDir` — the `tempfile.mkdtemp(prefix="mermaid_")` directory. -/

structure GenericHtml where
  md2html : String → String
  treePost : String → String

structure ForwardEnv where
  mmdcAvailable : Bool
  renderOk : Nat → Bool
  fileSize : Nat → Nat
  upload : String → String → Option String
  tempDir : String

/-- The per-image record assembled by
`MermaidLocalRenderer.render_all_to_temp` (lines 166-172). -/
structure ImgInfo where
  index : Nat
  code : String
  path : String
  filename : String
  size : Nat
deriving Repr, DecidableEq

/-- Replace `s[st:en]` by `rep` (`result[:start] + replacement + result[end:]`). -/
def spliceS (s : String) (st en : Nat) (rep : String) : String :=
  (s.toList.take st ++ rep.toList ++ s.toList.drop en).asString

/-- `MermaidLocalRenderer.render_all_to_temp` (lines 112-194): render every
fenced mermaid block, replace successfully rendered blocks by
`[[MERMAID_IMAGE_<i+1>]]` placeholders (splicing spans back to front), keep
failed blocks as their original text, and return the image records. -/
def render_all_to_temp (env : ForwardEnv) (markdown_content : String) :
    String × List ImgInfo :=
  if ¬ env.mmdcAvailable then (markdown_content, [])
  else
    let ms := mdMermaidMatches markdown_content
    if ms.isEmpty then (markdown_content, [])
    else
      let items := ms.enum.map (fun (i, st, en, full, raw) =>
        (i, st, en, full, stripS raw))
      let infos := (items.filter (fun e => env.renderOk e.1)).map
        (fun (i, _, _, _, code) =>
          ImgInfo.mk (i + 1) code
            (env.tempDir ++ "/" ++ ("mermaid_diagram_" ++ toString (i + 1) ++ ".png"))
            ("mermaid_diagram_" ++ toString (i + 1) ++ ".png")
            (env.fileSize i))
      let reps := items.map (fun (i, st, en, full, _) =>
        (st, en,
          if env.renderOk i then "[[MERMAID_IMAGE_" ++ toString (i + 1) ++ "]]" else full))
      let content := reps.reverse.foldl
        (fun acc (st, en, rep) => spliceS acc st en rep) markdown_content
      (content, infos)

/-- Steps 2.5-5 of `convert` (lines 137-166), shared by every render mode:
draw.io extraction and substitution, the generic Markdown→HTML transform,
placeholder restoration (`<p>`-wrapped first, then bare), and
`_html_to_storage`. -/
def finish_pipeline (g : GenericHtml) (markdown_content : String)
    (mermaid_placeholders : List (String × String)) (attachments : List String) :
    String × List String :=
  let drawio_blocks := extract_markdown_drawio markdown_content
  let drawio_placeholders := drawio_blocks.enum.map
    (fun (i, _, name) =>
      ("DRAWIOBLOCK" ++ toString i ++ "PLACEHOLDER", markdown_to_drawio_tag name))
  let md2 := drawio_blocks.enum.foldl
    (fun acc (i, orig, _) =>
      replaceAllS acc orig ("DRAWIOBLOCK" ++ toString i ++ "PLACEHOLDER"))
    markdown_content
  let html := g.md2html md2
  let html2 := mermaid_placeholders.foldl
    (fun acc (ph, rep) => replaceAllS (replaceAllS acc ("<p>" ++ ph ++ "</p>") rep) ph rep)
    html
  let html3 := drawio_placeholders.foldl
    (fun acc (ph, rep) => replaceAllS (replaceAllS acc ("<p>" ++ ph ++ "</p>") rep) ph rep)
    html2
  (g.treePost html3, attachments)

/-- The macro / code_block / other-mode tail of `convert` (lines 114-135):
extract fenced blocks, substitute `MERMAIDBLOCK<i>PLACEHOLDER` tokens and
record their macro replacements (no collision check is performed), then run
the shared pipeline. -/
def forward_rest (g : GenericHtml) (markdown_content mode : String) :
    String × List String :=
  if mode = "macro" then
    let blocks := extract_mermaid_blocks markdown_content
    let phs := blocks.enum.map (fun (i, _, code) =>
      ("MERMAIDBLOCK" ++ toString i ++ "PLACEHOLDER", mermaid_macro_tag code))
    let md1 := blocks.enum.foldl
      (fun acc (i, orig, _) =>
        replaceAllS acc orig ("MERMAIDBLOCK" ++ toString i ++ "PLACEHOLDER"))
      markdown_content
    finish_pipeline g md1 phs []
  else if mode = "code_block" then
    let blocks := extract_mermaid_blocks markdown_content
    let phs := blocks.enum.map (fun (i, _, code) =>
      ("MERMAIDBLOCK" ++ toString i ++ "PLACEHOLDER", create_mermaid_code_block code))
    let md1 := blocks.enum.foldl
      (fun acc (i, orig, _) =>
        replaceAllS acc orig ("MERMAIDBLOCK" ++ toString i ++ "PLACEHOLDER"))
      markdown_content
    finish_pipeline g md1 phs []
  else
    finish_pipeline g markdown_content [] []

/-- Python truthiness of the optional `page_id` string
(`if mermaid_render_mode == "image" and page_id and confluence_client`). -/
def truthy : Option String → Bool
  | some p => p ≠ ""
  | none => false

/-- `MarkdownToStorageConverter.convert` (lines 31-166).  `has_client` is the
truthiness of `confluence_client`.  Returns
`(storage_content, attachments)`; the embedding is a total function — every
failure path of the source is a logged degradation, not an exception. -/
def MarkdownToStorageConverter.convert (g : GenericHtml) (env : ForwardEnv)
    (markdown_content : String) (mermaid_render_mode : String)
    (page_id : Option String) (has_client : Bool) : String × List String :=
  let md0 := remove_metadata markdown_content
  if mermaid_render_mode = "image" ∧ truthy page_id ∧ has_client then
    if env.mmdcAvailable then
      let (temp_content, image_info) := render_all_to_temp env md0
      let st := image_info.foldl
        (fun (st : List (String × String) × List String) info =>
          match env.upload info.path info.filename with
          | some att =>
            (st.1 ++ [("[[MERMAID_IMAGE_" ++ toString info.index ++ "]]",
                image_tag info.filename)],
             st.2 ++ [att])
          | none =>
            (st.1 ++ [("[[MERMAID_IMAGE_" ++ toString info.index ++ "]]",
                create_mermaid_code_block info.code)],
             st.2))
        ([], [])
      finish_pipeline g temp_content st.1 st.2
    else
      forward_rest g md0 "code_block"
  else if mermaid_render_mode = "image" then
    forward_rest g md0 "code_block"
  else
    forward_rest g md0 mermaid_render_mode

/-! ### The reverse converter `StorageToMarkdownConverter.convert`

* `h2t` — the `html2text` transform, a black box per spec §6;
* `soupPass` — `_process_confluence_macros` (lines 89-158), repo code whose
  work is all tree surgery through the external BeautifulSoup library; it is
  modelled as a transform returning the rewritten content together with the
  ordered `___CODE_PLACEHOLDER_<n>___ ↦ (language, code)` map it builds. -/

structure ReverseEnv where
  h2t : String → String
  soupPass : String → String × List (String × String × String)

/-- Step 4 of the reverse `convert` (lines 60-67): restore each mermaid
placeholder, trying the literal token and then the underscore-escaped
variant; a token matching neither is left untouched and nothing is
recorded. -/
def restore_mermaid (phs : List (String × String)) (md : String) : String :=
  phs.foldl
    (fun acc (ph, code) =>
      let block := "```mermaid\n" ++ code ++ "\n```"
      replaceAllS (replaceAllS acc ph block) (replaceAllS ph "_" "\\_") block)
    md

/-- Step 5 of the reverse `convert` (lines 69-76): restore code placeholders
the same way. -/
def restore_code (cps : List (String × String × String)) (md : String) : String :=
  cps.foldl
    (fun acc (ph, language, code) =>
      let block := "```" ++ language ++ "\n" ++ code ++ "\n```"
      replaceAllS (replaceAllS acc ph block) (replaceAllS ph "_" "\\_") block)
    md

/-- `StorageToMarkdownConverter.convert` (lines 33-87). -/
def StorageToMarkdownConverter.convert (env : ReverseEnv)
    (storage_content : String) (page_title : Option String) : String :=
  let blocks := extract_confluence_mermaid storage_content
  let phs := blocks.enum.map (fun (i, _, code) =>
    ("___MERMAID_BLOCK_" ++ toString i ++ "___", code))
  let st1 := blocks.enum.foldl
    (fun acc (i, orig, _) =>
      replaceAllS acc orig ("___MERMAID_BLOCK_" ++ toString i ++ "___"))
    storage_content
  let pr := env.soupPass st1
  let md0 := env.h2t pr.1
  let md1 := restore_mermaid phs md0
  let md2 := restore_code pr.2 md1
  let md3 := post_process md2
  match page_title with
  | some t => if t ≠ "" then "---\ntitle: " ++ t ++ "\n---\n\n" ++ md3 else md3
  | none => md3

end ConfluenceMCP

namespace ConfluenceMCP

/-- Number of newline characters at the very end of `l`. -/
def trailingNlCount (l : List Char) : Nat :=
  (l.reverse.takeWhile (· = '\n')).length

/-- "Every line of `l` ends without trailing whitespace": each chunk of the
newline split is fixed by `rstrip`. -/
def linesRstripped (l : List Char) : Prop :=
  ∀ c ∈ splitNlL l, rstripL c = c

end ConfluenceMCP

namespace ConfluenceMCP

/-! ### General lemmas -/

/-- `str.replace` leaves a string without occurrences untouched
(for every amount of fuel). -/
theorem replaceAllF_of_not_contains (pat rep : List Char) (fuel : Nat)
    (s : List Char) (h : containsSub s pat = false) :
    replaceAllF pat rep fuel s = s := by
  induction fuel generalizing s with
  | zero => rfl
  | succ fuel ih =>
    cases s with
    | nil => rfl
    | cons c t =>
      rw [containsSub, Bool.or_eq_false_iff] at h
      rw [replaceAllF, if_neg, ih t h.2]
      intro hc
      rw [hc.2] at h
      exact absurd h.1 (by simp)

/-- `str.replace` leaves a string without occurrences untouched. -/
theorem replaceAllL_of_not_contains (s pat rep : List Char)
    (h : containsSub s pat = false) : replaceAllL pat rep s = s :=
  replaceAllF_of_not_contains pat rep _ s h

/-- Round trip between `String` and `List Char`. -/
theorem asString_toList (s : String) : s.toList.asString = s := rfl

/-- String-level version of `replaceAllL_of_not_contains`. -/
theorem replaceAllS_of_not_contains (s pat rep : String)
    (h : containsS s pat = false) : replaceAllS s pat rep = s := by
  unfold replaceAllS
  rw [replaceAllL_of_not_contains _ _ _ h, asString_toList]

end ConfluenceMCP

namespace ConfluenceMCP

/-! ### Claim C4 (code_bug) -/

set_option maxRecDepth 4000 in
/-- C4: the claim states that `_remove_metadata` strips at most the single
outermost metadata block at the start of the document and leaves marker
pairs appearing later (e.g. horizontal rules mid-document) untouched.  The
source regex is compiled with `re.MULTILINE` and applied with a global
`sub`, so it also deletes mid-document `---` pairs *and* the text between
them: on a document that starts with no metadata block at all, the text
`Section A` between two horizontal-rule lines is deleted.  This contradicts
the function's own docstring ("移除 YAML 元数据头" — remove the YAML
front-matter header). -/
theorem c4_metadata_middoc_removed :
    remove_metadata "Intro\n---\nSection A\n---\nTail\n" = "Intro\nTail\n"
      ∧ containsS (remove_metadata "Intro\n---\nSection A\n---\nTail\n") "Section A" = false := by
  decide

/-! ### Claim C1 (corrected) -/

set_option maxRecDepth 8000 in
/-- C1 counterexample: a document with exactly one fenced mermaid block,
converted to storage format in native-macro mode and back, yields zero
fenced mermaid blocks (the claim demands exactly one, with the original
body).  The forward environment models the generic Markdown→HTML transform
on the single-paragraph protected document (`python-markdown` wraps it as
`<p>…</p>`) and an identity tree pass (the parse/serialize cycle of
`_html_to_storage` is the identity on markup containing none of the
handled elements); the reverse environment models `html2text`, which emits
no text for unknown `ac:` elements whose only content is a CDATA
declaration.  No choice of these collaborators matters for the count: the
reverse converter only reintroduces ```` ```mermaid ```` fences for macros
its extraction step finds, and it finds none (the emitted macro is named
`mermaid-macro`, the extraction pattern requires `mermaid`). -/
theorem c1_roundtrip_counterexample :
    (extract_mermaid_blocks "```mermaid\ngraph TD\n```").length = 1
      ∧ (extract_mermaid_blocks (StorageToMarkdownConverter.convert
          ⟨fun _ => "", fun s => (s, [])⟩
          (MarkdownToStorageConverter.convert ⟨fun s => "<p>" ++ s ++ "</p>", fun s => s⟩
            ⟨false, fun _ => false, fun _ => 0, fun _ _ => none, ""⟩
            "```mermaid\ngraph TD\n```" "macro" none false).1 none)).length = 0 := by
  decide

/-! ### Claim C2 (corrected) -/

set_option maxRecDepth 8000 in
/-- C2 counterexample: the claim states that a pre-existing literal
substring shaped like a placeholder token survives forward conversion
unchanged.  On a document whose body starts with the literal text
`MERMAIDBLOCK0PLACEHOLDER` followed by one mermaid block, the token chosen
for block 0 is exactly that text, no collision check is performed
(`convert` lines 114-127 build `f"MERMAIDBLOCK{idx}PLACEHOLDER"`
unconditionally), and the restoration step replaces *every* occurrence, so
the pre-existing substring is replaced by macro content and is absent from
the output.  The environment models the generic transform's output on the
two-paragraph protected document and an identity tree pass. -/
theorem c2_collision_counterexample :
    containsS "MERMAIDBLOCK0PLACEHOLDER\n\n```mermaid\ngraph TD\n```"
        "MERMAIDBLOCK0PLACEHOLDER" = true
      ∧ containsS (MarkdownToStorageConverter.convert
          ⟨fun _ => "<p>MERMAIDBLOCK0PLACEHOLDER</p>\n<p>MERMAIDBLOCK0PLACEHOLDER</p>",
            fun s => s⟩
          ⟨false, fun _ => false, fun _ => 0, fun _ _ => none, ""⟩
          "MERMAIDBLOCK0PLACEHOLDER\n\n```mermaid\ngraph TD\n```" "macro" none false).1
          "MERMAIDBLOCK0PLACEHOLDER" = false := by
  decide

/-! ### Claim C3 (corrected) -/

set_option maxRecDepth 8000 in
/-- C3 counterexample: the claim states that a conversion in which a
substituted placeholder cannot be restored reports an unrestored-placeholder
count in its result.  The reverse converter returns a bare string: on a
storage document holding one mermaid macro, with an `html2text`
collaborator whose output mangles the substituted token
`___MERMAID_BLOCK_0___` beyond the two variants the restoration step tries
(the literal token and the underscore-escaped one), the protected code
`graph TD` is silently dropped — the result is just the mangled text plus
a newline, and carries no count of any kind. -/
theorem c3_unrestored_counterexample :
    (extract_confluence_mermaid "<ac:structured-macro ac:name=\"mermaid\"><ac:plain-text-body><![CDATA[graph TD]]></ac:plain-text-body></ac:structured-macro>").length = 1
      ∧ StorageToMarkdownConverter.convert
          ⟨fun _ => "MERMAID BLOCK 0 mangled", fun s => (s, [])⟩
          "<ac:structured-macro ac:name=\"mermaid\"><ac:plain-text-body><![CDATA[graph TD]]></ac:plain-text-body></ac:structured-macro>"
          none = "MERMAID BLOCK 0 mangled\n"
      ∧ containsS (StorageToMarkdownConverter.convert
          ⟨fun _ => "MERMAID BLOCK 0 mangled", fun s => (s, [])⟩
          "<ac:structured-macro ac:name=\"mermaid\"><ac:plain-text-body><![CDATA[graph TD]]></ac:plain-text-body></ac:structured-macro>"
          none) "graph TD" = false := by
  decide

/-! ### Claim C7 (corrected) -/

set_option maxRecDepth 2000 in
/-- C7 counterexample: the claim states that the remote hosted-rendering
URL (`MermaidToImageConverter.encode_mermaid`) is built by raw-deflating
the UTF-8 code bytes with no zlib header or trailer.  For the one-byte code
`"a"` the raw-deflate payload would be `SwQA`; `encode_mermaid` instead
produces the zlib-framed payload `eNpLBAAAYgBi` (header `0x78 0xDA` and
Adler-32 trailer), so the URL differs from the raw-deflate recipe. -/
theorem c7_recipe_counterexample :
    encode_mermaid "a" = "https://mermaid.ink/img/eNpLBAAAYgBi?type=png"
      ∧ b64url (deflRaw (utf8Bytes "a")) = "SwQA"
      ∧ encode_mermaid "a"
          ≠ "https://mermaid.ink/img/" ++ b64url (deflRaw (utf8Bytes "a")) ++ "?type=png" := by
  decide

/-! ### Claim C8 (corrected) -/

set_option maxRecDepth 2000 in
/-- C8 counterexample: the claim states that no run of three or more
consecutive newlines remains after `_post_process`.  Blank-line collapsing
(step 6) runs *before* per-line trailing-whitespace stripping (step 7), so
lines consisting only of spaces are turned into empty lines afterwards and
recreate such a run: the input `"a\n \n \nb"` post-processes to
`"a\n\n\nb\n"`, which contains three consecutive newlines. -/
theorem c8_blankline_counterexample :
    post_process "a\n \n \nb" = "a\n\n\nb\n"
      ∧ containsS (post_process "a\n \n \nb") "\n\n\n" = true := by
  decide

/-! ### Claim C10 (corrected) -/

set_option maxRecDepth 4000 in
/-- C10 counterexample: the claim states that *every* non-None `page_title`
causes the YAML header to be prepended.  The source guards with Python
truthiness (`if page_title:`), so the empty title — a non-None string —
produces no header at all. -/
theorem c10_empty_title_counterexample :
    StorageToMarkdownConverter.convert ⟨fun _ => "hi", fun s => (s, [])⟩
        "<p>hi</p>" (some "") = "hi\n"
      ∧ "---".toList.isPrefixOf (StorageToMarkdownConverter.convert
          ⟨fun _ => "hi", fun s => (s, [])⟩ "<p>hi</p>" (some "")).toList = false := by
  decide

/-! ### Claim C6 (corrected) -/

set_option maxRecDepth 8000 in
/-- C6 counterexample: the claim states that when *rendering* fails for a
diagram block, that block degrades to the fallback-code-block
representation (collapsible container with code sub-macro and editor deep
link).  In the source, a block whose render fails is kept as its original
fenced code block (`render_all_to_temp` lines 184-187) and therefore flows
through the generic pipeline into a plain Confluence code macro — it never
receives the collapsible `expand` container or the `mermaid.live` deep
link.  The environment models the generic transform on the untouched
fenced block and `_html_to_storage`'s code-macro rewriting of the resulting
`<pre><code class="language-mermaid">` element. -/
theorem c6_render_failure_counterexample :
    (MarkdownToStorageConverter.convert
        ⟨fun _ => "<pre><code class=\"language-mermaid\">graph TD\n</code></pre>",
          fun _ => "<ac:structured-macro ac:name=\"code\"><ac:parameter ac:name=\"language\">mermaid</ac:parameter><ac:plain-text-body><![CDATA[graph TD\n]]></ac:plain-text-body></ac:structured-macro>"⟩
        ⟨true, fun _ => false, fun _ => 0, fun _ _ => some "A", "/t"⟩
        "```mermaid\ngraph TD\n```" "image" (some "123") true).2 = []
      ∧ containsS (MarkdownToStorageConverter.convert
          ⟨fun _ => "<pre><code class=\"language-mermaid\">graph TD\n</code></pre>",
            fun _ => "<ac:structured-macro ac:name=\"code\"><ac:parameter ac:name=\"language\">mermaid</ac:parameter><ac:plain-text-body><![CDATA[graph TD\n]]></ac:plain-text-body></ac:structured-macro>"⟩
          ⟨true, fun _ => false, fun _ => 0, fun _ _ => some "A", "/t"⟩
          "```mermaid\ngraph TD\n```" "image" (some "123") true).1 "ac:name=\"expand\"" = false
      ∧ containsS (MarkdownToStorageConverter.convert
          ⟨fun _ => "<pre><code class=\"language-mermaid\">graph TD\n</code></pre>",
            fun _ => "<ac:structured-macro ac:name=\"code\"><ac:parameter ac:name=\"language\">mermaid</ac:parameter><ac:plain-text-body><![CDATA[graph TD\n]]></ac:plain-text-body></ac:structured-macro>"⟩
          ⟨true, fun _ => false, fun _ => 0, fun _ _ => some "A", "/t"⟩
          "```mermaid\ngraph TD\n```" "image" (some "123") true).1 "mermaid.live" = false
      ∧ containsS (MarkdownToStorageConverter.convert
          ⟨fun _ => "<pre><code class=\"language-mermaid\">graph TD\n</code></pre>",
            fun _ => "<ac:structured-macro ac:name=\"code\"><ac:parameter ac:name=\"language\">mermaid</ac:parameter><ac:plain-text-body><![CDATA[graph TD\n]]></ac:plain-text-body></ac:structured-macro>"⟩
          ⟨true, fun _ => false, fun _ => 0, fun _ _ => some "A", "/t"⟩
          "```mermaid\ngraph TD\n```" "image" (some "123") true).1 "ac:name=\"code\"" = true := by
  decide

end ConfluenceMCP

namespace ConfluenceMCP

/-! ### Claim C3 amended theorem -/

/-- C3 (amended): when a substituted mermaid placeholder appears in the
generic transform's output in neither of the two variants the restoration
step actually tries — the literal token and the underscore-escaped token —
the restoration step leaves the text completely unchanged: nothing is
restored, nothing is counted, and the conversion result (a bare string) has
no field in which a count could be reported.  (The claim's third variant,
the block-container-wrapped token, exists only in the forward converter;
the reverse converter of the source tries exactly these two.) -/
theorem c3_unrestored_silent (md ph code : String)
    (h1 : containsS md ph = false)
    (h2 : containsS md (replaceAllS ph "_" "\\_") = false) :
    restore_mermaid [(ph, code)] md = md := by
  unfold restore_mermaid
  simp only [List.foldl]
  rw [replaceAllS_of_not_contains _ _ _ h1, replaceAllS_of_not_contains _ _ _ h2]

/-- Witness for `c3_unrestored_silent` at a concrete mangled intermediate. -/
theorem c3_unrestored_silent_witness :
    restore_mermaid [("___MERMAID_BLOCK_0___", "graph TD")] "MERMAID BLOCK 0 mangled"
      = "MERMAID BLOCK 0 mangled" :=
  c3_unrestored_silent "MERMAID BLOCK 0 mangled" "___MERMAID_BLOCK_0___" "graph TD"
    (by decide) (by decide)

/-! ### Claim C10 amended theorem -/

/-- C10 (amended): for every storage content and every non-None, *non-empty*
`page_title`, the reverse conversion prepends exactly the YAML header
`---\ntitle: <page_title>\n---\n\n` to the result of the same conversion
without a title (in particular, with `page_title = none` no header is
added); and that header (with a concrete title, followed by body text) is
exactly what the forward converter's `_remove_metadata` strips.  The
amendment forced by the counterexample: an *empty* title is non-None but
truthiness-falsy, so it produces no header. -/
theorem c10_title_header (env : ReverseEnv) (storage t : String) (ht : t ≠ "") :
    StorageToMarkdownConverter.convert env storage (some t)
        = "---\ntitle: " ++ t ++ "\n---\n\n"
            ++ StorageToMarkdownConverter.convert env storage none
      ∧ remove_metadata ("---\ntitle: Example\n---\n\nBody") = "Body" := by
  constructor
  · unfold StorageToMarkdownConverter.convert
    simp only [if_pos ht]
  · decide

/-- Witness for `c10_title_header` at concrete inputs. -/
theorem c10_title_header_witness :
    StorageToMarkdownConverter.convert ⟨fun _ => "hi", fun s => (s, [])⟩
        "<p>hi</p>" (some "Example")
      = "---\ntitle: Example\n---\n\n"
          ++ StorageToMarkdownConverter.convert ⟨fun _ => "hi", fun s => (s, [])⟩
              "<p>hi</p>" none :=
  (c10_title_header ⟨fun _ => "hi", fun s => (s, [])⟩ "<p>hi</p>" "Example"
    (by decide)).1

/-! ### Claim C5 (confirmed) -/

/-- C5: a forward conversion requested in rendered-image mode with a missing
page handle (`page_id` None or empty, hence Python-falsy), or a missing
upload channel, or an unavailable rendering tool, behaves exactly as a
conversion requested in fallback-code-block mode: it silently degrades,
returns normally (the embedding is a total function — every failure branch
of this path is a logged degradation, not an exception), and never raises. -/
theorem c5_image_mode_degrades (g : GenericHtml) (env : ForwardEnv)
    (md : String) (page_id : Option String) (has_client : Bool)
    (h : truthy page_id = false ∨ has_client = false ∨ env.mmdcAvailable = false) :
    MarkdownToStorageConverter.convert g env md "image" page_id has_client
      = MarkdownToStorageConverter.convert g env md "code_block" page_id has_client := by
  unfold MarkdownToStorageConverter.convert
  have hcb1 : ¬ (("code_block" : String) = "image" ∧ truthy page_id = true ∧ has_client = true) := by
    intro hc
    exact absurd hc.1 (by decide)
  rw [if_neg hcb1, if_neg (by decide : ¬ ("code_block" : String) = "image")]
  rcases h with h | h | h
  · have : ¬ (("image" : String) = "image" ∧ truthy page_id = true ∧ has_client = true) := by
      intro hc
      rw [h] at hc
      exact absurd hc.2.1 (by decide)
    rw [if_neg this, if_pos rfl]
  · have : ¬ (("image" : String) = "image" ∧ truthy page_id = true ∧ has_client = true) := by
      intro hc
      rw [h] at hc
      exact absurd hc.2.2 (by decide)
    rw [if_neg this, if_pos rfl]
  · by_cases hc : ("image" : String) = "image" ∧ truthy page_id = true ∧ has_client = true
    · rw [if_pos hc, if_neg (by rw [h]; decide : ¬ env.mmdcAvailable = true)]
    · rw [if_neg hc, if_pos rfl]

/-- Witness for `c5_image_mode_degrades`: image mode without a page id. -/
theorem c5_image_mode_degrades_witness :
    MarkdownToStorageConverter.convert ⟨fun s => s, fun s => s⟩
        ⟨true, fun _ => true, fun _ => 0, fun _ _ => some "A", "/t"⟩
        "hello" "image" none false
      = MarkdownToStorageConverter.convert ⟨fun s => s, fun s => s⟩
          ⟨true, fun _ => true, fun _ => 0, fun _ _ => some "A", "/t"⟩
          "hello" "code_block" none false :=
  c5_image_mode_degrades ⟨fun s => s, fun s => s⟩
    ⟨true, fun _ => true, fun _ => 0, fun _ _ => some "A", "/t"⟩
    "hello" none false (Or.inl (by decide))

end ConfluenceMCP

namespace ConfluenceMCP

/-- Length of the base64 encoding: four output characters per started
three-byte group (`=`-padded). -/
theorem b64urlL_length (bs : List Nat) :
    (b64urlL bs).length = 4 * ((bs.length + 2) / 3) := by
  induction bs using b64urlL.induct with
  | case1 => rfl
  | case2 b1 => simp [b64urlL]
  | case3 b1 b2 => simp [b64urlL]
  | case4 b1 b2 b3 rest ih =>
    simp only [b64urlL, List.length_cons, ih]
    omega

/-- The Adler-32 trailer is four bytes long. -/
theorem adler32_length (bs : List Nat) : (adler32 bs).length = 4 := rfl

/-! ### Claim C7 amended theorem -/

/-- C7 (amended): the fallback code block's deep link is indeed built by
raw-deflate-compressing the UTF-8 code bytes (no zlib header or trailer),
URL-safe base64-encoding, and appending after the fixed prefix; but the
degradation chain's remote hosted-rendering URL (`encode_mermaid`) uses
`zlib.compress`, whose output wraps the same raw stream in the 2-byte zlib
header `0x78 0xDA` and the 4-byte Adler-32 trailer.  Because of those six
framing bytes the two base64 payloads differ in length by exactly 8
characters — for every diagram code, the two recipes disagree. -/
theorem c7_encoding_recipes (code : String) :
    mermaid_live_url code
        = "https://mermaid.live/edit#pako:" ++ b64url (deflRaw (utf8Bytes code))
      ∧ encode_mermaid code
          = "https://mermaid.ink/img/"
              ++ b64url (([0x78, 0xDA] ++ (deflRaw (utf8Bytes code) ++ adler32 (utf8Bytes code))))
              ++ "?type=png"
      ∧ (b64url (zlibCompressBytes (utf8Bytes code))).length
          = (b64url (deflRaw (utf8Bytes code))).length + 8
      ∧ b64url (zlibCompressBytes (utf8Bytes code)) ≠ b64url (deflRaw (utf8Bytes code)) := by
  refine ⟨rfl, rfl, ?_, ?_⟩
  · show (b64urlL (zlibCompressBytes (utf8Bytes code))).length
        = (b64urlL (deflRaw (utf8Bytes code))).length + 8
    rw [b64urlL_length, b64urlL_length]
    show 4 * (((deflRaw (utf8Bytes code) ++ adler32 (utf8Bytes code)).length + 1 + 1 + 2) / 3)
        = 4 * (((deflRaw (utf8Bytes code)).length + 2) / 3) + 8
    rw [List.length_append, adler32_length]
    omega
  · intro h
    have hl : (b64url (zlibCompressBytes (utf8Bytes code))).length
        = (b64url (deflRaw (utf8Bytes code))).length + 8 := by
      show (b64urlL (zlibCompressBytes (utf8Bytes code))).length
          = (b64urlL (deflRaw (utf8Bytes code))).length + 8
      rw [b64urlL_length, b64urlL_length]
      show 4 * (((deflRaw (utf8Bytes code) ++ adler32 (utf8Bytes code)).length + 1 + 1 + 2) / 3)
          = 4 * (((deflRaw (utf8Bytes code)).length + 2) / 3) + 8
      rw [List.length_append, adler32_length]
      omega
    rw [h] at hl
    omega

end ConfluenceMCP

namespace ConfluenceMCP

/-! ### Claim C1 amended theorem -/

set_option maxRecDepth 8000 in
/-- C1 (amended): converting a document with a fenced mermaid block to
storage format in native-macro mode emits a macro named `mermaid-macro`
(`convert` line 120), while the reverse converter's extraction pattern
(`CONFLUENCE_MERMAID_PATTERN`) matches only macros named `mermaid` — so the
reverse pass recovers zero diagram blocks from the forward output and the
claimed round trip fails for every document with at least one block.
Renaming the emitted macro to `mermaid` would make extraction recover
exactly the trimmed body.  The two environment hypotheses pin the generic
transform black boxes on the single protected document this instance
produces (quantifying over all collaborators that behave like the real
ones there). -/
theorem c1_macro_name_mismatch (g : GenericHtml) (env : ForwardEnv)
    (h1 : g.md2html "MERMAIDBLOCK0PLACEHOLDER" = "<p>MERMAIDBLOCK0PLACEHOLDER</p>")
    (h2 : ∀ s, g.treePost s = s) :
    (MarkdownToStorageConverter.convert g env "```mermaid\ngraph TD\n```"
        "macro" none false).1 = mermaid_macro_tag "graph TD"
      ∧ extract_confluence_mermaid (mermaid_macro_tag "graph TD") = []
      ∧ (extract_confluence_mermaid
          (replaceAllS (mermaid_macro_tag "graph TD") "mermaid-macro" "mermaid")).map
            Prod.snd = ["graph TD"] := by
  have e : MarkdownToStorageConverter.convert g env "```mermaid\ngraph TD\n```"
      "macro" none false
      = (g.treePost (replaceAllS (replaceAllS (g.md2html "MERMAIDBLOCK0PLACEHOLDER")
          "<p>MERMAIDBLOCK0PLACEHOLDER</p>" (mermaid_macro_tag "graph TD"))
          "MERMAIDBLOCK0PLACEHOLDER" (mermaid_macro_tag "graph TD")), []) := rfl
  refine ⟨?_, by decide, by decide⟩
  rw [e, h1, h2]
  decide

/-- Witness for `c1_macro_name_mismatch` with collaborators instantiated to
the modelled behaviours. -/
theorem c1_macro_name_mismatch_witness :
    (MarkdownToStorageConverter.convert ⟨fun s => "<p>" ++ s ++ "</p>", fun s => s⟩
        ⟨false, fun _ => false, fun _ => 0, fun _ _ => none, ""⟩
        "```mermaid\ngraph TD\n```" "macro" none false).1 = mermaid_macro_tag "graph TD"
      ∧ extract_confluence_mermaid (mermaid_macro_tag "graph TD") = []
      ∧ (extract_confluence_mermaid
          (replaceAllS (mermaid_macro_tag "graph TD") "mermaid-macro" "mermaid")).map
            Prod.snd = ["graph TD"] :=
  c1_macro_name_mismatch ⟨fun s => "<p>" ++ s ++ "</p>", fun s => s⟩
    ⟨false, fun _ => false, fun _ => 0, fun _ _ => none, ""⟩ rfl (fun _ => rfl)

/-! ### Claim C2 amended theorem -/

set_option maxRecDepth 8000 in
/-- C2 (amended): the placeholder-protection step performs *no* collision
check — the token for block `idx` is always `MERMAIDBLOCK<idx>PLACEHOLDER` —
and the restoration step replaces every occurrence of the token, so a
pre-existing literal substring of that shape is corrupted: it is replaced by
macro content and is absent from the output (here the whole output is two
copies of the macro).  The hypotheses pin the generic transforms on the
protected document of this instance. -/
theorem c2_no_collision_check (g : GenericHtml) (env : ForwardEnv)
    (h1 : g.md2html "MERMAIDBLOCK0PLACEHOLDER\n\nMERMAIDBLOCK0PLACEHOLDER"
        = "<p>MERMAIDBLOCK0PLACEHOLDER</p>\n<p>MERMAIDBLOCK0PLACEHOLDER</p>")
    (h2 : ∀ s, g.treePost s = s) :
    (MarkdownToStorageConverter.convert g env
        "MERMAIDBLOCK0PLACEHOLDER\n\n```mermaid\ngraph TD\n```" "macro" none false).1
        = mermaid_macro_tag "graph TD" ++ "\n" ++ mermaid_macro_tag "graph TD"
      ∧ containsS (MarkdownToStorageConverter.convert g env
          "MERMAIDBLOCK0PLACEHOLDER\n\n```mermaid\ngraph TD\n```" "macro" none false).1
          "MERMAIDBLOCK0PLACEHOLDER" = false := by
  have e : MarkdownToStorageConverter.convert g env
      "MERMAIDBLOCK0PLACEHOLDER\n\n```mermaid\ngraph TD\n```" "macro" none false
      = (g.treePost (replaceAllS (replaceAllS
          (g.md2html "MERMAIDBLOCK0PLACEHOLDER\n\nMERMAIDBLOCK0PLACEHOLDER")
          "<p>MERMAIDBLOCK0PLACEHOLDER</p>" (mermaid_macro_tag "graph TD"))
          "MERMAIDBLOCK0PLACEHOLDER" (mermaid_macro_tag "graph TD")), []) := rfl
  constructor
  · rw [e, h1, h2]
    decide
  · rw [e, h1, h2]
    decide

/-- Witness for `c2_no_collision_check` with collaborators instantiated to
the modelled behaviours. -/
theorem c2_no_collision_check_witness :
    (MarkdownToStorageConverter.convert
        ⟨fun _ => "<p>MERMAIDBLOCK0PLACEHOLDER</p>\n<p>MERMAIDBLOCK0PLACEHOLDER</p>",
          fun s => s⟩
        ⟨false, fun _ => false, fun _ => 0, fun _ _ => none, ""⟩
        "MERMAIDBLOCK0PLACEHOLDER\n\n```mermaid\ngraph TD\n```" "macro" none false).1
        = mermaid_macro_tag "graph TD" ++ "\n" ++ mermaid_macro_tag "graph TD"
      ∧ containsS (MarkdownToStorageConverter.convert
          ⟨fun _ => "<p>MERMAIDBLOCK0PLACEHOLDER</p>\n<p>MERMAIDBLOCK0PLACEHOLDER</p>",
            fun s => s⟩
          ⟨false, fun _ => false, fun _ => 0, fun _ _ => none, ""⟩
          "MERMAIDBLOCK0PLACEHOLDER\n\n```mermaid\ngraph TD\n```" "macro" none false).1
          "MERMAIDBLOCK0PLACEHOLDER" = false :=
  c2_no_collision_check
    ⟨fun _ => "<p>MERMAIDBLOCK0PLACEHOLDER</p>\n<p>MERMAIDBLOCK0PLACEHOLDER</p>", fun s => s⟩
    ⟨false, fun _ => false, fun _ => 0, fun _ _ => none, ""⟩ rfl (fun _ => rfl)

end ConfluenceMCP

namespace ConfluenceMCP

/-- Auxiliary congruence for pair results whose second component is shared. -/
theorem pair_fst_congr {α β : Type} (x y : α) (l : β) (h : x = y) :
    (x, l) = (y, l) := by rw [h]

/-! ### Claim C6 amended theorem -/

set_option maxRecDepth 10000 in
/-- C6 (amended): in rendered-image mode, *attachment-upload* failure is
per-block: on a two-diagram document where both diagrams render, if the
upload of one diagram's image fails (the client raises), only that block
degrades to the collapsible fallback-code-block representation, the other
still appears as an attachment image reference, the successfully uploaded
attachment is returned, and the call returns normally — whichever of the
two blocks is the failing one.  (Render failure, by contrast, keeps the
block as its original fenced code, see the counterexample.)  The upload
collaborator is keyed by filename; the hypotheses pin the generic
transforms on the placeholder document of this instance. -/
theorem c6_per_block_upload_degrade (g : GenericHtml) (fs : Nat → Nat)
    (td a1 : String)
    (h1 : g.md2html "[[MERMAID_IMAGE_1]]\n\n[[MERMAID_IMAGE_2]]"
        = "<p>[[MERMAID_IMAGE_1]]</p>\n<p>[[MERMAID_IMAGE_2]]</p>")
    (h2 : ∀ s, g.treePost s = s) :
    MarkdownToStorageConverter.convert g
        ⟨true, fun _ => true, fs,
          fun _ f => if f = "mermaid_diagram_1.png" then some a1 else none, td⟩
        "```mermaid\ngraph TD\n```\n\n```mermaid\ngraph LR\n```"
        "image" (some "123") true
        = (image_tag "mermaid_diagram_1.png" ++ "\n"
            ++ create_mermaid_code_block "graph LR", [a1])
      ∧ MarkdownToStorageConverter.convert g
          ⟨true, fun _ => true, fs,
            fun _ f => if f = "mermaid_diagram_2.png" then some a1 else none, td⟩
          "```mermaid\ngraph TD\n```\n\n```mermaid\ngraph LR\n```"
          "image" (some "123") true
          = (create_mermaid_code_block "graph TD" ++ "\n"
              ++ image_tag "mermaid_diagram_2.png", [a1]) := by
  constructor
  · have e : MarkdownToStorageConverter.convert g
        ⟨true, fun _ => true, fs,
          fun _ f => if f = "mermaid_diagram_1.png" then some a1 else none, td⟩
        "```mermaid\ngraph TD\n```\n\n```mermaid\ngraph LR\n```"
        "image" (some "123") true
        = (g.treePost (replaceAllS (replaceAllS (replaceAllS (replaceAllS
            (g.md2html "[[MERMAID_IMAGE_1]]\n\n[[MERMAID_IMAGE_2]]")
            ("<p>" ++ ("[[MERMAID_IMAGE_" ++ toString (1 : Nat) ++ "]]") ++ "</p>")
            (image_tag ("mermaid_diagram_" ++ toString (1 : Nat) ++ ".png")))
            ("[[MERMAID_IMAGE_" ++ toString (1 : Nat) ++ "]]")
            (image_tag ("mermaid_diagram_" ++ toString (1 : Nat) ++ ".png")))
            ("<p>" ++ ("[[MERMAID_IMAGE_" ++ toString (2 : Nat) ++ "]]") ++ "</p>")
            (create_mermaid_code_block "graph LR"))
            ("[[MERMAID_IMAGE_" ++ toString (2 : Nat) ++ "]]")
            (create_mermaid_code_block "graph LR")), [a1]) := rfl
    rw [e, h1, h2]
    exact pair_fst_congr _ _ _ (by decide)
  · have e : MarkdownToStorageConverter.convert g
        ⟨true, fun _ => true, fs,
          fun _ f => if f = "mermaid_diagram_2.png" then some a1 else none, td⟩
        "```mermaid\ngraph TD\n```\n\n```mermaid\ngraph LR\n```"
        "image" (some "123") true
        = (g.treePost (replaceAllS (replaceAllS (replaceAllS (replaceAllS
            (g.md2html "[[MERMAID_IMAGE_1]]\n\n[[MERMAID_IMAGE_2]]")
            ("<p>" ++ ("[[MERMAID_IMAGE_" ++ toString (1 : Nat) ++ "]]") ++ "</p>")
            (create_mermaid_code_block "graph TD"))
            ("[[MERMAID_IMAGE_" ++ toString (1 : Nat) ++ "]]")
            (create_mermaid_code_block "graph TD"))
            ("<p>" ++ ("[[MERMAID_IMAGE_" ++ toString (2 : Nat) ++ "]]") ++ "</p>")
            (image_tag ("mermaid_diagram_" ++ toString (2 : Nat) ++ ".png")))
            ("[[MERMAID_IMAGE_" ++ toString (2 : Nat) ++ "]]")
            (image_tag ("mermaid_diagram_" ++ toString (2 : Nat) ++ ".png"))), [a1]) := rfl
    rw [e, h1, h2]
    exact pair_fst_congr _ _ _ (by decide)

set_option maxRecDepth 10000 in
/-- Witness for `c6_per_block_upload_degrade` with collaborators
instantiated to the modelled behaviours. -/
theorem c6_per_block_upload_degrade_witness :
    MarkdownToStorageConverter.convert
        ⟨fun _ => "<p>[[MERMAID_IMAGE_1]]</p>\n<p>[[MERMAID_IMAGE_2]]</p>", fun s => s⟩
        ⟨true, fun _ => true, fun _ => 0,
          fun _ f => if f = "mermaid_diagram_1.png" then some "A1" else none, "/tmp/m"⟩
        "```mermaid\ngraph TD\n```\n\n```mermaid\ngraph LR\n```"
        "image" (some "123") true
        = (image_tag "mermaid_diagram_1.png" ++ "\n"
            ++ create_mermaid_code_block "graph LR", ["A1"]) :=
  (c6_per_block_upload_degrade
    ⟨fun _ => "<p>[[MERMAID_IMAGE_1]]</p>\n<p>[[MERMAID_IMAGE_2]]</p>", fun s => s⟩
    (fun _ => 0) "/tmp/m" "A1" rfl (fun _ => rfl)).1

end ConfluenceMCP

namespace ConfluenceMCP

/-- Pointwise relation between the image records of two runs that differ
only in the temporary directory: index, code and filename agree (the local
path may differ). -/
def imgRel (a b : ImgInfo) : Prop :=
  a.index = b.index ∧ a.code = b.code ∧ a.filename = b.filename

/-- Mapping a list with two pointwise-related functions yields
`Forall₂`-related lists. -/
theorem forall₂_map_map {α β γ : Type} (R : β → γ → Prop) (f1 : α → β) (f2 : α → γ)
    (h : ∀ a, R (f1 a) (f2 a)) : ∀ l : List α, List.Forall₂ R (l.map f1) (l.map f2)
  | [] => List.Forall₂.nil
  | a :: l => List.Forall₂.cons (h a) (forall₂_map_map R f1 f2 h l)

/-- `render_all_to_temp` is insensitive to the temporary directory: the
rewritten markdown is identical and the image records agree except for
their local paths. -/
theorem render_tempDir (r : Nat → Bool) (f : Nat → Nat)
    (u : String → String → Option String) (t1 t2 md : String) :
    (render_all_to_temp ⟨true, r, f, u, t1⟩ md).1
      = (render_all_to_temp ⟨true, r, f, u, t2⟩ md).1
    ∧ List.Forall₂ imgRel (render_all_to_temp ⟨true, r, f, u, t1⟩ md).2
        (render_all_to_temp ⟨true, r, f, u, t2⟩ md).2 := by
  unfold render_all_to_temp
  dsimp only
  by_cases hms : (mdMermaidMatches md).isEmpty
  · simp only [hms, if_true, ite_self]
    exact ⟨trivial, List.Forall₂.nil⟩
  · simp only [hms, if_false, not_true, Bool.false_eq_true]
    constructor
    · trivial
    · apply forall₂_map_map
      exact fun a => ⟨rfl, rfl, rfl⟩

/-- The upload/placeholder fold of `convert`'s image branch maps
`imgRel`-related record lists to equal results when the upload
collaborator's outcome does not depend on the local path. -/
theorem upload_fold_congr (u : String → String → Option String)
    (hu : ∀ p q fn, u p fn = u q fn) :
    ∀ (l1 l2 : List ImgInfo), List.Forall₂ imgRel l1 l2 →
    ∀ acc : List (String × String) × List String,
    l1.foldl (fun st info =>
      match u info.path info.filename with
      | some att =>
        (st.1 ++ [("[[MERMAID_IMAGE_" ++ toString info.index ++ "]]", image_tag info.filename)],
         st.2 ++ [att])
      | none =>
        (st.1 ++ [("[[MERMAID_IMAGE_" ++ toString info.index ++ "]]",
            create_mermaid_code_block info.code)],
         st.2)) acc
      = l2.foldl (fun st info =>
        match u info.path info.filename with
        | some att =>
          (st.1 ++ [("[[MERMAID_IMAGE_" ++ toString info.index ++ "]]", image_tag info.filename)],
           st.2 ++ [att])
        | none =>
          (st.1 ++ [("[[MERMAID_IMAGE_" ++ toString info.index ++ "]]",
              create_mermaid_code_block info.code)],
           st.2)) acc := by
  intro l1 l2 hrel
  induction hrel with
  | nil => intro acc; rfl
  | cons h hrest ih =>
    intro acc
    rename_i a b l1' l2'
    simp only [List.foldl_cons]
    have hufn : u a.path a.filename = u b.path b.filename := by
      rw [h.2.2]
      exact hu a.path b.path b.filename
    rw [hufn, h.1, h.2.1, h.2.2]
    exact ih _

/-! ### Claim C9 (confirmed) -/

/-- C9: the forward conversion is deterministic.  The embedding is a pure
function of the input, the render mode and the collaborator behaviour, so
two runs with identical arguments and identical collaborator environments
are trivially equal; this theorem proves the stronger fact behind the
claim: even the run-specific state — the `mkdtemp` temporary directory,
the only thing that actually varies between two otherwise identical
runs — cannot influence the result (output text *and* attachment list),
provided the upload collaborator's outcome does not depend on the local
file path it is handed. -/
theorem c9_deterministic_output (g : GenericHtml) (m : Bool) (r : Nat → Bool)
    (f : Nat → Nat) (u : String → String → Option String)
    (t1 t2 md mode : String) (pid : Option String) (hcl : Bool)
    (hu : ∀ p q fn, u p fn = u q fn) :
    MarkdownToStorageConverter.convert g ⟨m, r, f, u, t1⟩ md mode pid hcl
      = MarkdownToStorageConverter.convert g ⟨m, r, f, u, t2⟩ md mode pid hcl := by
  unfold MarkdownToStorageConverter.convert
  by_cases h1 : mode = "image" ∧ truthy pid = true ∧ hcl = true
  · simp only [if_pos h1]
    cases m with
    | false => rfl
    | true =>
      obtain ⟨hcont, hrel⟩ := render_tempDir r f u t1 t2 (remove_metadata md)
      have e1 : render_all_to_temp ⟨true, r, f, u, t1⟩ (remove_metadata md)
          = ((render_all_to_temp ⟨true, r, f, u, t1⟩ (remove_metadata md)).1,
             (render_all_to_temp ⟨true, r, f, u, t1⟩ (remove_metadata md)).2) := rfl
      have e2 : render_all_to_temp ⟨true, r, f, u, t2⟩ (remove_metadata md)
          = ((render_all_to_temp ⟨true, r, f, u, t2⟩ (remove_metadata md)).1,
             (render_all_to_temp ⟨true, r, f, u, t2⟩ (remove_metadata md)).2) := rfl
      rw [e1]
      rw [e2]
      dsimp only
      rw [hcont]
      rw [upload_fold_congr u hu _ _ hrel ([], [])]
  · simp only [if_neg h1]

/-- Witness for `c9_deterministic_output` at a concrete input: two runs of
the same image-mode conversion differing only in their temporary
directories. -/
theorem c9_deterministic_output_witness :
    MarkdownToStorageConverter.convert ⟨fun s => s, fun s => s⟩
        ⟨true, fun _ => true, fun _ => 0, fun _ _ => some "A", "/tmp/a"⟩
        "```mermaid\ngraph TD\n```" "image" (some "1") true
      = MarkdownToStorageConverter.convert ⟨fun s => s, fun s => s⟩
          ⟨true, fun _ => true, fun _ => 0, fun _ _ => some "A", "/tmp/b"⟩
          "```mermaid\ngraph TD\n```" "image" (some "1") true :=
  c9_deterministic_output ⟨fun s => s, fun s => s⟩ true (fun _ => true) (fun _ => 0)
    (fun _ _ => some "A") "/tmp/a" "/tmp/b" "```mermaid\ngraph TD\n```" "image"
    (some "1") true (fun _ _ _ => rfl)

end ConfluenceMCP

namespace ConfluenceMCP

theorem splitNl_ne_nil (l : List Char) : splitNlL l ≠ [] := by
  cases l with
  | nil => simp [splitNlL]
  | cons c t =>
    rw [splitNlL]
    split
    · simp
    · cases h : splitNlL t <;> simp

theorem splitNl_concat_nl (w : List Char) :
    splitNlL (w ++ ['\n']) = splitNlL w ++ [[]] := by
  induction w with
  | nil => rfl
  | cons c w ih =>
    rw [List.cons_append, splitNlL, splitNlL]
    by_cases hc : c = '\n'
    · rw [if_pos hc, if_pos hc, ih]
      rfl
    · rw [if_neg hc, if_neg hc, ih]
      cases h : splitNlL w with
      | nil => exact absurd h (splitNl_ne_nil w)
      | cons x r => rfl

theorem rstrip_concat (w : List Char) (c : Char) :
    rstripL (w ++ [c]) = if pyWS c then rstripL w else w ++ [c] := by
  unfold rstripL
  rw [List.reverse_append]
  simp only [List.reverse_cons, List.reverse_nil, List.nil_append, List.singleton_append,
    List.dropWhile_cons]
  split
  · rfl
  · simp

theorem rstrip_length_le (l : List Char) : (rstripL l).length ≤ l.length := by
  unfold rstripL
  calc (l.reverse.dropWhile pyWS).reverse.length
      = (l.reverse.dropWhile pyWS).length := List.length_reverse _
    _ ≤ l.reverse.length := (List.dropWhile_sublist _).length_le
    _ = l.length := List.length_reverse _

theorem dropWhile_idem (p : Char → Bool) (l : List Char) :
    List.dropWhile p (List.dropWhile p l) = List.dropWhile p l := by
  induction l with
  | nil => rfl
  | cons c t ih =>
    rw [List.dropWhile_cons]
    split
    · exact ih
    · rename_i h
      rw [List.dropWhile_cons, if_neg h]

theorem rstrip_idem (l : List Char) : rstripL (rstripL l) = rstripL l := by
  unfold rstripL
  rw [List.reverse_reverse, dropWhile_idem]

end ConfluenceMCP

namespace ConfluenceMCP

theorem splitNl_no_nl (l : List Char) : ∀ c ∈ splitNlL l, '\n' ∉ c := by
  induction l with
  | nil =>
    intro c hc
    simp [splitNlL] at hc
    simp [hc]
  | cons d t ih =>
    intro c hc
    rw [splitNlL] at hc
    by_cases hd : d = '\n'
    · rw [if_pos hd] at hc
      rcases List.mem_cons.mp hc with hc | hc
      · simp [hc]
      · exact ih c hc
    · rw [if_neg hd] at hc
      cases h : splitNlL t with
      | nil => exact absurd h (splitNl_ne_nil t)
      | cons x r =>
        rw [h] at hc
        rcases List.mem_cons.mp hc with hc | hc
        · subst hc
          intro hmem
          rcases List.mem_cons.mp hmem with hmem | hmem
          · exact hd hmem.symm
          · exact ih x (by rw [h]; exact List.mem_cons_self x r) hmem
        · exact ih c (by rw [h]; exact List.mem_cons_of_mem x hc)

theorem splitNl_of_no_nl (l : List Char) (h : '\n' ∉ l) : splitNlL l = [l] := by
  induction l with
  | nil => rfl
  | cons c t ih =>
    rw [splitNlL, if_neg (by intro hc; exact h (hc ▸ List.mem_cons_self c t))]
    rw [ih (fun hm => h (List.mem_cons_of_mem c hm))]

theorem splitNl_append_cons_nl (x rest : List Char) (h : '\n' ∉ x) :
    splitNlL (x ++ '\n' :: rest) = x :: splitNlL rest := by
  induction x with
  | nil => simp [splitNlL]
  | cons c t ih =>
    rw [List.cons_append, splitNlL,
      if_neg (by intro hc; exact h (hc ▸ List.mem_cons_self c t)),
      ih (fun hm => h (List.mem_cons_of_mem c hm))]

theorem splitNl_join (cs : List (List Char)) (hnl : ∀ c ∈ cs, '\n' ∉ c)
    (hne : cs ≠ []) : splitNlL (joinNlL cs) = cs := by
  induction cs with
  | nil => exact absurd rfl hne
  | cons x r ih =>
    cases r with
    | nil =>
      show splitNlL (joinNlL [x]) = [x]
      have : joinNlL [x] = x := by simp [joinNlL, List.intercalate]
      rw [this]
      exact splitNl_of_no_nl x (hnl x (List.mem_cons_self x []))
    | cons y r' =>
      have hj : joinNlL (x :: y :: r') = x ++ '\n' :: joinNlL (y :: r') := by
        simp [joinNlL, List.intercalate, List.intersperse_cons_cons]
      rw [hj, splitNl_append_cons_nl x _ (hnl x (List.mem_cons_self _ _)),
        ih (fun c hc => hnl c (List.mem_cons_of_mem x hc)) (by simp)]

end ConfluenceMCP

namespace ConfluenceMCP

theorem rstrip_subset (l : List Char) : ∀ x ∈ rstripL l, x ∈ l := by
  intro x hx
  unfold rstripL at hx
  rw [List.mem_reverse] at hx
  have := (List.dropWhile_sublist (l := l.reverse) (p := pyWS)).subset hx
  rwa [List.mem_reverse] at this

theorem linesRstripped_rstripLines (u : List Char) :
    linesRstripped (rstripLines u) := by
  unfold linesRstripped rstripLines
  rw [splitNl_join _ ?hnl ?hne]
  case hnl =>
    intro c hc
    rcases List.mem_map.mp hc with ⟨c0, hc0, rfl⟩
    intro hmem
    exact splitNl_no_nl u c0 hc0 (rstrip_subset c0 '\n' hmem)
  case hne =>
    intro hmap
    exact splitNl_ne_nil u (List.map_eq_nil_iff.mp hmap)
  intro c hc
  rcases List.mem_map.mp hc with ⟨c0, _, rfl⟩
  exact rstrip_idem c0

theorem dropWhile_head_not (p : Char → Bool) (l : List Char) (c : Char) (t : List Char)
    (h : List.dropWhile p l = c :: t) : p c = false := by
  induction l with
  | nil => simp at h
  | cons d l' ih =>
    rw [List.dropWhile_cons] at h
    split at h
    · exact ih h
    · rename_i hd
      cases h
      simpa using hd

theorem rstrip_last_not_ws (l : List Char) (w : List Char) (c : Char)
    (h : rstripL l = w ++ [c]) : pyWS c = false := by
  unfold rstripL at h
  have hrev : List.dropWhile pyWS l.reverse = c :: w.reverse := by
    have := congrArg List.reverse h
    rwa [List.reverse_reverse, List.reverse_append, List.reverse_singleton,
      List.singleton_append] at this
  exact dropWhile_head_not pyWS l.reverse c w.reverse hrev

theorem rstrip_cons_fix (c : Char) (h : List Char)
    (hfix : rstripL (c :: h) = c :: h) (hws : pyWS c = true) : rstripL h = h ∧ h ≠ [] := by
  cases hh : h.reverse with
  | nil =>
    have : h = [] := by simpa using congrArg List.reverse hh
    subst this
    rw [show rstripL [c] = rstripL ([] ++ [c]) from rfl, rstrip_concat] at hfix
    rw [hws] at hfix
    simp [rstripL] at hfix
  | cons d r =>
    have hd : h = r.reverse ++ [d] := by
      have := congrArg List.reverse hh
      simpa using this
    have hlast : pyWS d = false := by
      have : rstripL (c :: h) = (c :: r.reverse) ++ [d] := by
        rw [hfix, hd]
        simp
      exact rstrip_last_not_ws _ _ _ this
    constructor
    · rw [hd, rstrip_concat, hlast]
      simp
    · rw [hd]
      simp

end ConfluenceMCP

namespace ConfluenceMCP

theorem linesRstripped_tail (c : Char) (t : List Char)
    (h : linesRstripped (c :: t)) : linesRstripped t := by
  unfold linesRstripped at h ⊢
  by_cases hc : c = '\n'
  · intro x hx
    apply h
    rw [splitNlL, if_pos hc]
    exact List.mem_cons_of_mem _ hx
  · cases hsp : splitNlL t with
    | nil => exact absurd hsp (splitNl_ne_nil t)
    | cons x r =>
      have hmem : ∀ y ∈ splitNlL (c :: t), rstripL y = y := h
      have hsplit : splitNlL (c :: t) = (c :: x) :: r := by
        rw [splitNlL, if_neg hc, hsp]
      intro y hy
      rcases List.mem_cons.mp hy with hy | hy
      · subst hy
        have hx : rstripL (c :: y) = c :: y := by
          apply hmem
          rw [hsplit]
          exact List.mem_cons_self _ _
        -- rstrip of c :: y fixed implies rstrip of y fixed
        cases hyr : y.reverse with
        | nil =>
          have : y = [] := by simpa using congrArg List.reverse hyr
          simp [this, rstripL]
        | cons d r' =>
          have hy' : y = r'.reverse ++ [d] := by simpa using congrArg List.reverse hyr
          have hlast : pyWS d = false := by
            apply rstrip_last_not_ws (c :: y) (c :: r'.reverse) d
            rw [hx, hy']
            simp
          rw [hy', rstrip_concat, hlast]
          simp
      · apply hmem
        rw [hsplit]
        exact List.mem_cons_of_mem _ hy

theorem linesRstripped_lstrip (v : List Char) (h : linesRstripped v) :
    linesRstripped (lstripL v) := by
  induction v with
  | nil => exact h
  | cons c t ih =>
    unfold lstripL
    rw [List.dropWhile_cons]
    split
    · exact ih (linesRstripped_tail c t h)
    · exact h

theorem last_chunk_concat (c : Char) (hc : c ≠ '\n') (w : List Char) :
    ∃ pre lc, splitNlL w = pre ++ [lc] ∧ splitNlL (w ++ [c]) = pre ++ [lc ++ [c]] := by
  induction w with
  | nil =>
    refine ⟨[], [], rfl, ?_⟩
    simp only [List.nil_append]
    rw [splitNlL, if_neg hc]
    rfl
  | cons d w ih =>
    rcases ih with ⟨pre, lc, h1, h2⟩
    by_cases hd : d = '\n'
    · refine ⟨[] :: pre, lc, ?_, ?_⟩
      · rw [splitNlL, if_pos hd, h1]
        rfl
      · rw [List.cons_append, splitNlL, if_pos hd, h2]
        rfl
    · cases pre with
      | nil =>
        refine ⟨[], d :: lc, ?_, ?_⟩
        · rw [splitNlL, if_neg hd, h1]
          rfl
        · rw [List.cons_append, splitNlL, if_neg hd, h2]
          rfl
      | cons p0 pre' =>
        refine ⟨(d :: p0) :: pre', lc, ?_, ?_⟩
        · rw [splitNlL, if_neg hd, h1]
          rfl
        · rw [List.cons_append, splitNlL, if_neg hd, h2]
          rfl

theorem linesRstripped_drop_concat (w : List Char) (c : Char)
    (hws : pyWS c = true) (h : linesRstripped (w ++ [c])) : c = '\n' ∧ linesRstripped w := by
  by_cases hc : c = '\n'
  · subst hc
    refine ⟨rfl, ?_⟩
    intro x hx
    apply h
    rw [splitNl_concat_nl]
    exact List.mem_append_left _ hx
  · exfalso
    rcases last_chunk_concat c hc w with ⟨pre, lc, _, h2⟩
    have hmem : (lc ++ [c]) ∈ splitNlL (w ++ [c]) := by
      rw [h2]
      exact List.mem_append_right _ (List.mem_cons_self _ _)
    have hfix := h _ hmem
    rw [rstrip_concat, hws] at hfix
    have hlen := congrArg List.length hfix
    rw [List.length_append] at hlen
    have := rstrip_length_le lc
    simp at hlen
    omega

theorem linesRstripped_rstrip (v : List Char) (h : linesRstripped v) :
    linesRstripped (rstripL v) := by
  induction v using List.reverseRecOn with
  | nil => exact h
  | append_singleton w c ih =>
    rw [rstrip_concat]
    by_cases hws : pyWS c = true
    · rw [if_pos hws]
      rcases linesRstripped_drop_concat w c hws h with ⟨_, hw⟩
      exact ih hw
    · rw [if_neg hws]
      exact h

end ConfluenceMCP

namespace ConfluenceMCP

theorem strip_last_not_ws (l w : List Char) (d : Char)
    (h : stripL l = w ++ [d]) : pyWS d = false := by
  unfold stripL lstripL at h
  obtain ⟨pre, hpre⟩ := List.dropWhile_suffix (l := rstripL l) (p := pyWS)
  rw [h] at hpre
  exact rstrip_last_not_ws l (pre ++ w) d (by rw [← hpre]; simp)

theorem trailingNl_one (x : List Char)
    (hx : ∀ w d, x = w ++ [d] → pyWS d = false) :
    trailingNlCount (x ++ ['\n']) = 1 := by
  unfold trailingNlCount
  rw [List.reverse_append, List.reverse_singleton, List.singleton_append,
    List.takeWhile_cons]
  rw [if_pos (by decide)]
  cases hxr : x.reverse with
  | nil => rfl
  | cons d r =>
    have hd : pyWS d = false := by
      apply hx r.reverse d
      simpa using congrArg List.reverse hxr
    rw [List.takeWhile_cons, if_neg ?hne]
    · rfl
    case hne =>
      intro hdnl
      rw [show d = '\n' from by simpa using hdnl] at hd
      simp [pyWS] at hd

/-! ### Claim C8 amended theorem -/

/-- C8 (amended): for every input string, the reverse converter's cosmetic
post-processing yields output in which no line ends with whitespace
(every chunk of the newline split is fixed by `rstrip`) and which ends
with exactly one trailing newline (the trailing newline run has length
one).  The claim's third property — that no run of three or more newlines
remains — is false (see the counterexample): blank-line collapsing runs
before per-line trailing-whitespace stripping, which can recreate such
runs from whitespace-only lines. -/
theorem c8_post_process_props (s : String) :
    (∀ c ∈ splitNlL (post_process s).toList, rstripL c = c)
    ∧ trailingNlCount (post_process s).toList = 1 := by
  obtain ⟨v, hv⟩ : ∃ v, (post_process s).toList = stripL (rstripLines v) ++ ['\n'] :=
    ⟨_, rfl⟩
  have h1 : linesRstripped (rstripLines v) := linesRstripped_rstripLines v
  have h2 : linesRstripped (stripL (rstripLines v)) :=
    linesRstripped_lstrip _ (linesRstripped_rstrip _ h1)
  constructor
  · rw [hv]
    intro c hc
    rw [splitNl_concat_nl] at hc
    rcases List.mem_append.mp hc with hc | hc
    · exact h2 c hc
    · rw [List.mem_singleton.mp hc]
      rfl
  · rw [hv]
    apply trailingNl_one
    intro w d hwd
    exact strip_last_not_ws (rstripLines v) w d hwd

end ConfluenceMCP
